import Mathlib

/-!
Verification of the FPS-GameServer connection hub and registry stores.

The definitions below are a shallow embedding of the Go source:
* `server/models/models.go` — the `User`, `Room`, `GameResult` records;
* the `data` package (`UserStore`, `RoomStore`, `ResultStore`) — in-memory
  slices with linear scans (file persistence is outside the embedding);
* `server/app/ws.go` — the `Hub`: client set, heartbeat map, the message
  handlers (`create_room`, `join_room`, `start_game`, `death`, `game_over`,
  `heartbeat`), `broadcastGameAction`, the heartbeat sweep and `serveWs`;
* `server/service/room_service.go` — the HTTP-path `roomService.JoinRoom`.

Go `time.Time` values are modelled as `Nat` nanosecond counts, Go `int` as
`Int`, Go maps as association lists that are deduplicated on insert, and the
`map[*Client]bool` client set as a `List Client` where the `ref` field plays
the role of pointer identity.
-/

namespace GameServer

/-- User record, from `models.go` (`Username`, `Password`, `Email`, `Online`,
`LoginTime`, `RoomID`). -/
structure User where
  username : String
  password : String
  email : String
  online : Bool
  loginTime : Nat
  roomID : String
deriving Repr, DecidableEq

/-- Room record, from `models.go` (`ID`, `Name`, `HostID`, `Players`,
`MaxPlayers`, `Status`, `CreatedAt`). `MaxPlayers` is a Go `int`, so it is
an unconstrained `Int` here: nothing in the code validates it. -/
structure Room where
  id : String
  name : String
  hostID : String
  players : List String
  maxPlayers : Int
  status : String
  createdAt : Nat
deriving Repr, DecidableEq

/-- GameResult record, from `models.go`. -/
structure GameResult where
  id : String
  roomID : String
  winner : String
  loser : String
  playTime : Nat
  duration : Int
deriving Repr, DecidableEq

/-- WebSocket client, from `ws.go` (`Client`): `username` and the cached
`roomID`. The `ref` field models Go pointer identity (the hub stores clients
in a `map[*Client]bool`); the transport handle, the outbound channel and the
unused `lastPing` field are not part of the state. -/
structure Client where
  ref : Nat
  username : String
  roomID : String
deriving Repr, DecidableEq

/-- `UserStore.FindByUsername` from the `data` package: linear scan for the
first user with the given username, `nil` (here `none`) when absent. -/
def UserStore.findByUsername (users : List User) (username : String) : Option User :=
  users.find? (fun u => u.username == username)

/-- `UserStore.Update` from the `data` package: replace the first entry whose
`Username` equals the key and return `true`; return `false` and leave the
slice unchanged when no entry matches. -/
def UserStore.update : List User → String → User → List User × Bool
  | [], _, _ => ([], false)
  | w :: rest, username, v =>
    if w.username == username then (v :: rest, true)
    else
      let r := UserStore.update rest username v
      (w :: r.1, r.2)

/-- `RoomStore.GetByID` from the `data` package. -/
def RoomStore.getByID (rooms : List Room) (id : String) : Option Room :=
  rooms.find? (fun r => r.id == id)

/-- `RoomStore.Update` from the `data` package: replace the first entry whose
`ID` equals `v.ID` and return `true`; otherwise return `false` unchanged. -/
def RoomStore.update : List Room → Room → List Room × Bool
  | [], _ => ([], false)
  | w :: rest, v =>
    if w.id == v.id then (v :: rest, true)
    else
      let r := RoomStore.update rest v
      (w :: r.1, r.2)

/-- `protocol.RoomInfo`. -/
structure RoomInfo where
  id : String
  name : String
  host : String
  players : List String
  maxPlayers : Int
  status : String
deriving Repr, DecidableEq

/-- `protocol.CreateRoomRequest`. -/
structure CreateRoomRequest where
  name : String
  maxPlayers : Int
deriving Repr, DecidableEq

/-- `protocol.JoinRoomResponse`; the Go `Room` field is `omitempty`, modelled
as `Option RoomInfo`. -/
structure JoinRoomResponse where
  success : Bool
  message : String
  room : Option RoomInfo
deriving Repr, DecidableEq

/-- `protocol.GameOverInfo`. -/
structure GameOverInfo where
  winner : String
  loser : String
  duration : Int
deriving Repr, DecidableEq

/-- The hub state relevant to the claims: the live client set, the heartbeat
map, and the contents of the three stores (`ws.go`, `Hub` struct fields
`clients`, `heartbeatMap`, `userStore`, `roomStore`, `resultStore`). -/
structure HubState where
  clients : List Client
  heartbeatMap : List (String × Nat)
  users : List User
  rooms : List Room
  results : List GameResult
deriving Repr, DecidableEq

/-- Go map assignment for the heartbeat table: insert the key, dropping any
previous binding. -/
def hbSet (k : String) (v : Nat) (m : List (String × Nat)) : List (String × Nat) :=
  (k, v) :: m.filter (fun p => p.1 != k)

/-- Go map `delete` for the heartbeat table. -/
def hbErase (k : String) (m : List (String × Nat)) : List (String × Nat) :=
  m.filter (fun p => p.1 != k)

/-- Key set of the heartbeat table. -/
def hbKeys (m : List (String × Nat)) : List String :=
  m.map Prod.fst

/-- The user side effect shared by `unregister`, the broadcast slow-consumer
teardown and the heartbeat sweep in `ws.go`: look up the user and, if it is
online, mark it offline and clear its room reference. -/
def userOffline (users : List User) (username : String) : List User :=
  match UserStore.findByUsername users username with
  | none => users
  | some u =>
    if u.online then
      (UserStore.update users username { u with online := false, roomID := "" }).1
    else users

/-- The `register` case of `Hub.run`: add the client to the set and stamp its
heartbeat entry with the current time. -/
def registerStep (st : HubState) (c : Client) (now : Nat) : HubState :=
  { st with
      clients := if c ∈ st.clients then st.clients else c :: st.clients,
      heartbeatMap := hbSet c.username now st.heartbeatMap }

/-- The `unregister` case of `Hub.run`: if the client is present, remove it
from the client set and the heartbeat table and apply the offline user
update; otherwise do nothing. -/
def unregisterStep (st : HubState) (c : Client) : HubState :=
  if c ∈ st.clients then
    { st with
        clients := st.clients.filter (fun x => x != c),
        heartbeatMap := hbErase c.username st.heartbeatMap,
        users := userOffline st.users c.username }
  else st

/-- The `broadcast` case of `Hub.run`: every client whose send queue is full
(the `slow` list, an environment choice) is torn down exactly as in
`unregister`. -/
def broadcastStep (st : HubState) (slow : List Client) : HubState :=
  slow.foldl unregisterStep st

/-- The sweep threshold `10 * time.Second` from `Hub.heartbeatCheck`, in
nanoseconds. -/
def heartbeatTimeout : Nat := 10000000000

/-- One entry of the `Hub.heartbeatCheck` loop body: if the entry is more
than `heartbeatTimeout` old, apply the offline user update and delete the
entry; otherwise leave the state alone. -/
def sweepEntry (now : Nat) (st : HubState) (p : String × Nat) : HubState :=
  if now - p.2 > heartbeatTimeout then
    { st with
        users := userOffline st.users p.1,
        heartbeatMap := hbErase p.1 st.heartbeatMap }
  else st

/-- Fold of `sweepEntry` over a list of heartbeat entries. -/
def sweepFold (now : Nat) (l : List (String × Nat)) (st : HubState) : HubState :=
  l.foldl (sweepEntry now) st

/-- One tick of `Hub.heartbeatCheck`: iterate the heartbeat table, offlining
and deleting every entry older than 10 seconds. The client set is not
touched by this loop in the source. -/
def sweepStep (st : HubState) (now : Nat) : HubState :=
  sweepFold now st.heartbeatMap st

/-- The `heartbeat` message case of `Hub.handleMessage`: refresh the sender's
entry (the heartbeat-ack reply carries no state). -/
def heartbeatMsgStep (st : HubState) (c : Client) (now : Nat) : HubState :=
  { st with heartbeatMap := hbSet c.username now st.heartbeatMap }

/-- `protocol.RoomInfo` built from a room, as in the handlers of `ws.go`. -/
def roomInfoOf (r : Room) : RoomInfo :=
  { id := r.id, name := r.name, host := r.hostID, players := r.players,
    maxPlayers := r.maxPlayers, status := r.status }

/-- Failure `JoinRoomResponse` (`Success: false`, no room). -/
def failResp (m : String) : JoinRoomResponse :=
  { success := false, message := m, room := none }

/-- Success `JoinRoomResponse` carrying a room snapshot. -/
def okResp (m : String) (ri : RoomInfo) : JoinRoomResponse :=
  { success := true, message := m, room := some ri }

/-- The room record built by the `create_room` case of `Hub.handleMessage`:
fresh id from the clock, host and players from the sender, `MaxPlayers`
copied from the request without validation, status `waiting`. -/
def createRoomRecord (username : String) (req : CreateRoomRequest) (now : Nat) : Room :=
  { id := "room_" ++ toString now, name := req.name, hostID := username,
    players := [username], maxPlayers := req.maxPlayers,
    status := "waiting", createdAt := now }

/-- State effect of the `create_room` case of `Hub.handleMessage`: append the
new room, update the stored user's room reference, and set the sender's
cached `roomID` (pointer mutation of the client). -/
def createRoomStep (st : HubState) (sender : Client) (req : CreateRoomRequest)
    (now : Nat) : HubState :=
  let room := createRoomRecord sender.username req now
  let users2 :=
    match UserStore.findByUsername st.users sender.username with
    | none => st.users
    | some u => (UserStore.update st.users sender.username { u with roomID := room.id }).1
  { st with
      rooms := st.rooms ++ [room],
      users := users2,
      clients := st.clients.map (fun c => if c = sender then { c with roomID := room.id } else c) }

/-- Output and state of the `join_room` case of `Hub.handleMessage`.
`senderMsgs` is the ordered list of responses enqueued on the sender's
connection and `othersMsgs` the room-update broadcast to the other members. -/
structure JoinOutcome where
  senderMsgs : List JoinRoomResponse
  othersMsgs : List (Client × JoinRoomResponse)
  rooms : List Room
  users : List User
  senderRoomID : String
deriving Repr, DecidableEq

/-- The `join_room` case of `Hub.handleMessage`, lines 347-459 of `ws.go`.
The first three rejections leave the handler via a `break` of the `switch`;
the already-member rejection is sent from inside a `for` loop whose `break`
only leaves the loop, so control falls through to the join itself. -/
def handleJoinRoom (clients : List Client) (rooms : List Room) (users : List User)
    (sender : Client) (reqRoomID : String) : JoinOutcome :=
  match RoomStore.getByID rooms reqRoomID with
  | none =>
    { senderMsgs := [failResp "房间不存在"], othersMsgs := [],
      rooms := rooms, users := users, senderRoomID := sender.roomID }
  | some room =>
    if room.status = "playing" then
      { senderMsgs := [failResp "游戏进行中，无法加入"], othersMsgs := [],
        rooms := rooms, users := users, senderRoomID := sender.roomID }
    else if (room.players.length : Int) ≥ room.maxPlayers then
      { senderMsgs := [failResp "房间已满"], othersMsgs := [],
        rooms := rooms, users := users, senderRoomID := sender.roomID }
    else
      let memberMsgs : List JoinRoomResponse :=
        if sender.username ∈ room.players then [failResp "您已在房间中"] else []
      let players2 := room.players ++ [sender.username]
      let room2 := { room with
        players := players2,
        status := if players2.length ≥ 2 then "ready" else room.status }
      let rooms2 := (RoomStore.update rooms room2).1
      let users2 :=
        match UserStore.findByUsername users sender.username with
        | none => users
        | some u => (UserStore.update users sender.username { u with roomID := room.id }).1
      let info := roomInfoOf room2
      { senderMsgs := memberMsgs ++ [okResp "加入房间成功" info],
        othersMsgs :=
          (clients.filter (fun c => c.roomID == room.id && c.username != sender.username)).map
            (fun c => (c, okResp (sender.username ++ " 加入了房间") info)),
        rooms := rooms2, users := users2, senderRoomID := room.id }

/-- State effect of the `join_room` case: the store contents from
`handleJoinRoom` plus the pointer mutation of the sender's cached room id. -/
def joinRoomStep (st : HubState) (sender : Client) (reqRoomID : String) : HubState :=
  let o := handleJoinRoom st.clients st.rooms st.users sender reqRoomID
  { st with
      rooms := o.rooms,
      users := o.users,
      clients := st.clients.map (fun c => if c = sender then { c with roomID := o.senderRoomID } else c) }

/-- `Hub.startGame`: no-op unless the room exists and the sender is its host;
otherwise set the status to `playing` and persist (the `game_start`
broadcast carries no store state). -/
def startGameStep (st : HubState) (sender : Client) : HubState :=
  match RoomStore.getByID st.rooms sender.roomID with
  | none => st
  | some room =>
    if sender.username ≠ room.hostID then st
    else { st with rooms := (RoomStore.update st.rooms { room with status := "playing" }).1 }

/-- Output of `Hub.handleGameOver`: the result log, the room store, and the
payload pushed onto the global broadcast channel. -/
structure GameOverOutcome where
  results : List GameResult
  rooms : List Room
  broadcastPayload : GameOverInfo
deriving Repr, DecidableEq

/-- `Hub.handleGameOver`, lines 499-522 of `ws.go`: append a `GameResult`
whose `RoomID` is the empty string, look the room up by the empty string id
(resetting it to `waiting` only if such a room exists), and broadcast the
payload globally. -/
def handleGameOver (rooms : List Room) (results : List GameResult) (now : Nat)
    (gameOver : GameOverInfo) : GameOverOutcome :=
  let result : GameResult :=
    { id := "result_" ++ toString now, roomID := "", winner := gameOver.winner,
      loser := gameOver.loser, playTime := now, duration := gameOver.duration }
  let results2 := results ++ [result]
  let rooms2 :=
    match RoomStore.getByID rooms "" with
    | none => rooms
    | some room => (RoomStore.update rooms { room with status := "waiting" }).1
  { results := results2, rooms := rooms2, broadcastPayload := gameOver }

/-- `Hub.handleDeath`: look up the sender's room; if it exists and has at
least two players, take the first player different from the loser as winner
(empty string if none) and process a synthesized game-over. -/
def handleDeath (rooms : List Room) (results : List GameResult) (now : Nat)
    (loserClient : Client) (loserID : String) : Option GameOverOutcome :=
  match RoomStore.getByID rooms loserClient.roomID with
  | none => none
  | some room =>
    if room.players.length < 2 then none
    else
      let winner := (room.players.find? (fun p => p != loserID)).getD ""
      some (handleGameOver rooms results now
        { winner := winner, loser := loserID, duration := 0 })

/-- State effect of the `game_over` message. -/
def gameOverStep (st : HubState) (gameOver : GameOverInfo) (now : Nat) : HubState :=
  let o := handleGameOver st.rooms st.results now gameOver
  { st with rooms := o.rooms, results := o.results }

/-- State effect of the `death` message. -/
def deathStep (st : HubState) (sender : Client) (loserID : String) (now : Nat) : HubState :=
  match handleDeath st.rooms st.results now sender loserID with
  | none => st
  | some o => { st with rooms := o.rooms, results := o.results }

/-- Recipient set of `Hub.broadcastGameAction`: every live client in the
sender's room other than the sender, by the source's own filter
`client.roomID == sender.roomID && client.username != sender.username`. -/
def broadcastGameAction (clients : List Client) (sender : Client) : List Client :=
  clients.filter (fun c => c.roomID == sender.roomID && c.username != sender.username)

/-- `Hub.HasActiveConnection`: the username is a key of the heartbeat map or
the username of some live client. -/
def hasActiveConnection (st : HubState) (username : String) : Bool :=
  (st.heartbeatMap.any (fun p => p.1 == username)) ||
    (st.clients.any (fun c => c.username == username))

/-- Outcome of `Server.serveWs` before the pumps start. -/
inductive ServeWsResult where
  | emptyUsername : ServeWsResult
  | duplicateSession : ServeWsResult
  | notLoggedIn : ServeWsResult
  | accepted : Client → ServeWsResult
deriving Repr, DecidableEq

/-- `Server.serveWs`, lines 560-601 of `ws.go`: reject an empty username,
then a username that already has an active connection, then a user that is
missing or offline; otherwise build the client (cached room id copied from
the stored user) that will be sent to the hub's register channel. `nextRef`
models the fresh pointer of the new client. -/
def serveWs (st : HubState) (username : String) (nextRef : Nat) : ServeWsResult :=
  if username = "" then .emptyUsername
  else if hasActiveConnection st username then .duplicateSession
  else
    match UserStore.findByUsername st.users username with
    | none => .notLoggedIn
    | some user =>
      if user.online then .accepted { ref := nextRef, username := username, roomID := user.roomID }
      else .notLoggedIn

/-- Outcome of `roomService.JoinRoom` (`room_service.go`): the joined room on
success, the user-facing message, and the updated store contents. -/
structure ServiceJoinOutcome where
  room : Option Room
  message : String
  rooms : List Room
  users : List User
deriving Repr, DecidableEq

/-- `roomService.JoinRoom`, lines 64-107 of `room_service.go`. Its checks
run in the order not-found, full, playing, already-member. -/
def roomServiceJoinRoom (rooms : List Room) (users : List User)
    (req : String) (username : String) : ServiceJoinOutcome :=
  match RoomStore.getByID rooms req with
  | none => { room := none, message := "房间不存在", rooms := rooms, users := users }
  | some room =>
    if (room.players.length : Int) ≥ room.maxPlayers then
      { room := none, message := "房间已满", rooms := rooms, users := users }
    else if room.status = "playing" then
      { room := none, message := "游戏进行中，无法加入", rooms := rooms, users := users }
    else if username ∈ room.players then
      { room := none, message := "您已在房间中", rooms := rooms, users := users }
    else
      let players2 := room.players ++ [username]
      let room2 := { room with
        players := players2,
        status := if players2.length ≥ 2 then "ready" else room.status }
      let rooms2 := (RoomStore.update rooms room2).1
      let users2 :=
        match UserStore.findByUsername users username with
        | none => users
        | some u => (UserStore.update users username { u with roomID := room.id }).1
      { room := some room2, message := "加入房间成功", rooms := rooms2, users := users2 }

/-- Join-room rejection reasons. -/
inductive JoinReject where
  | notFound : JoinReject
  | playing : JoinReject
  | full : JoinReject
  | member : JoinReject
deriving Repr, DecidableEq

/-- The message carried by each rejection. -/
def rejectMsg : JoinReject → String
  | .notFound => "房间不存在"
  | .playing => "游戏进行中，无法加入"
  | .full => "房间已满"
  | .member => "您已在房间中"

/-- Modelled from the spec: the first applicable join-room rejection in the
spec's stated precedence order not-found, playing, full, already-member
(`none` when the join should succeed). This definition follows the spec's
words and is compared against the code's handlers. -/
def specJoinRejectOrder (rooms : List Room) (username : String)
    (reqRoomID : String) : Option JoinReject :=
  match RoomStore.getByID rooms reqRoomID with
  | none => some .notFound
  | some room =>
    if room.status = "playing" then some .playing
    else if (room.players.length : Int) ≥ room.maxPlayers then some .full
    else if username ∈ room.players then some .member
    else none

/-- Messages of the failure responses a join outcome enqueues on the sender's
connection, in order. -/
def joinFailureMsgs (o : JoinOutcome) : List String :=
  (o.senderMsgs.filter (fun r => r.success == false)).map (fun r => r.message)

/-- One hub transition. The constructors are the state mutations of `ws.go`:
the three `Hub.run` cases, the sweep tick, and the message handlers that
mutate state. Handlers fired by an inbound message require the sender to be
a live client. `guard` constrains which `create_room` requests the
environment may send (instantiated with the trivial predicate for plain
reachability). -/
inductive HubStep (guard : CreateRoomRequest → Prop) : HubState → HubState → Prop where
  | register (st : HubState) (c : Client) (now : Nat) :
      HubStep guard st (registerStep st c now)
  | unregister (st : HubState) (c : Client) :
      HubStep guard st (unregisterStep st c)
  | broadcastTeardown (st : HubState) (slow : List Client) :
      HubStep guard st (broadcastStep st slow)
  | sweep (st : HubState) (now : Nat) :
      HubStep guard st (sweepStep st now)
  | heartbeat (st : HubState) (c : Client) (now : Nat) (hc : c ∈ st.clients) :
      HubStep guard st (heartbeatMsgStep st c now)
  | createRoom (st : HubState) (c : Client) (req : CreateRoomRequest) (now : Nat)
      (hc : c ∈ st.clients) (hreq : guard req) :
      HubStep guard st (createRoomStep st c req now)
  | joinRoom (st : HubState) (c : Client) (reqRoomID : String) (hc : c ∈ st.clients) :
      HubStep guard st (joinRoomStep st c reqRoomID)
  | startGame (st : HubState) (c : Client) (hc : c ∈ st.clients) :
      HubStep guard st (startGameStep st c)
  | gameOver (st : HubState) (g : GameOverInfo) (now : Nat) :
      HubStep guard st (gameOverStep st g now)
  | death (st : HubState) (c : Client) (loserID : String) (now : Nat) (hc : c ∈ st.clients) :
      HubStep guard st (deathStep st c loserID now)

/-- The hub state right after `NewServer`: no clients, empty heartbeat map,
all rooms removed by the startup cleanup, persisted users and results
arbitrary. -/
def initState (users0 : List User) (results0 : List GameResult) : HubState :=
  { clients := [], heartbeatMap := [], users := users0, rooms := [], results := results0 }

/-- A state the hub can reach from some startup state by `HubStep`
transitions. -/
def Reachable (guard : CreateRoomRequest → Prop) (st : HubState) : Prop :=
  ∃ users0 results0, Relation.ReflTransGen (HubStep guard) (initState users0 results0) st

/-- The two room invariants of the spec. -/
def roomInv (r : Room) : Prop :=
  (r.players.length : Int) ≤ r.maxPlayers ∧ r.hostID ∈ r.players

/-- Every key of the heartbeat table is the username of some live client. -/
def hbConsistent (st : HubState) : Prop :=
  ∀ u, u ∈ hbKeys st.heartbeatMap → ∃ c, c ∈ st.clients ∧ c.username = u

/-- Every stored room satisfies the spec's two room invariants. -/
def roomsConsistent (st : HubState) : Prop :=
  ∀ r ∈ st.rooms, roomInv r

/-! Concrete instances used by the counterexample and witness theorems. -/

/-- A finished game's room: non-empty id, mid-game status. -/
def c1Room : Room :=
  { id := "room_1", name := "r", hostID := "alice", players := ["alice", "bob"],
    maxPlayers := 2, status := "playing", createdAt := 0 }

/-- A waiting three-player room that already contains alice and bob. -/
def c2Room : Room :=
  { id := "r1", name := "n", hostID := "alice", players := ["alice", "bob"],
    maxPlayers := 3, status := "waiting", createdAt := 0 }

/-- Alice's connection, already a member of `c2Room`. -/
def c2Sender : Client := { ref := 0, username := "alice", roomID := "r1" }

/-- What `c2Room` becomes after alice's duplicate join falls through. -/
def c2RoomAfter : Room :=
  { c2Room with players := ["alice", "bob", "alice"], status := "ready" }

/-- A room that is simultaneously playing and full. -/
def c3Room : Room :=
  { id := "r1", name := "n", hostID := "a", players := ["a", "b"],
    maxPlayers := 2, status := "playing", createdAt := 0 }

/-- A connection for carol, in no room. -/
def c3Sender : Client := { ref := 5, username := "carol", roomID := "" }

def c4Client : Client := { ref := 0, username := "alice", roomID := "" }

/-- A create-room request asking for zero capacity. -/
def c4CexReq : CreateRoomRequest := { name := "x", maxPlayers := 0 }

/-- Register alice and let her create a room with `max_players = 0`. -/
def c4CexState : HubState :=
  createRoomStep (registerStep (initState [] []) c4Client 0) c4Client c4CexReq 7

/-- The room that create-room builds from `c4CexReq`. -/
def c4CexRoom : Room := createRoomRecord "alice" c4CexReq 7

def w4Req : CreateRoomRequest := { name := "w", maxPlayers := 2 }

def w4State : HubState :=
  createRoomStep (registerStep (initState [] []) c4Client 3) c4Client w4Req 7

def c5Client : Client := { ref := 0, username := "alice", roomID := "" }

def c5User : User :=
  { username := "alice", password := "pw", email := "e", online := true,
    loginTime := 0, roomID := "r1" }

/-- Alice is live with a heartbeat stamp 20 seconds in the past. -/
def c5State : HubState :=
  { clients := [c5Client], heartbeatMap := [("alice", 0)], users := [c5User],
    rooms := [], results := [] }

def c5Now : Nat := 20000000000

def w5User : User :=
  { username := "bob", password := "pw", email := "e", online := true,
    loginTime := 0, roomID := "r2" }

def w5Client : Client := { ref := 1, username := "bob", roomID := "r2" }

/-- Bob's heartbeat is stale, carol's is fresh. -/
def w5State : HubState :=
  { clients := [w5Client], heartbeatMap := [("bob", 5), ("carol", 14000000000)],
    users := [w5User], rooms := [], results := [] }

def w5Now : Nat := 15000000000

def w7State : HubState :=
  { clients := [], heartbeatMap := [("alice", 0)], users := [], rooms := [],
    results := [] }

def w8Client : Client := { ref := 0, username := "alice", roomID := "" }

def w8State : HubState := registerStep (initState [] []) w8Client 5

def w9User : User :=
  { username := "alice", password := "pw", email := "e", online := true,
    loginTime := 0, roomID := "" }

def w9UserNew : User :=
  { username := "alice", password := "pw2", email := "e", online := false,
    loginTime := 0, roomID := "" }

def w9Room : Room :=
  { id := "r1", name := "n", hostID := "h", players := ["h"], maxPlayers := 2,
    status := "waiting", createdAt := 0 }

def w9RoomNew : Room :=
  { id := "r1", name := "n2", hostID := "h", players := ["h", "x"], maxPlayers := 2,
    status := "ready", createdAt := 0 }

def w10Room : Room :=
  { id := "r9", name := "n", hostID := "a", players := ["a", "b"], maxPlayers := 2,
    status := "playing", createdAt := 0 }

def w10Client : Client := { ref := 0, username := "a", roomID := "r9" }

/-! Store lemmas shared by several claims. -/

theorem userStore_update_absent (users : List User) (uname : String) (v : User)
    (h : ∀ w ∈ users, w.username ≠ uname) :
    UserStore.update users uname v = (users, false) := by
  induction users with
  | nil => rfl
  | cons w rest ih =>
    have hw : w.username ≠ uname := h w (List.mem_cons_self _ _)
    have ih2 := ih (fun x hx => h x (List.mem_cons_of_mem _ hx))
    simp [UserStore.update, beq_iff_eq, hw, ih2]

theorem userStore_update_found (pre : List User) (w : User) (post : List User)
    (uname : String) (v : User) (hw : w.username = uname)
    (hpre : ∀ x ∈ pre, x.username ≠ uname) :
    UserStore.update (pre ++ w :: post) uname v = (pre ++ v :: post, true) := by
  induction pre with
  | nil => simp [UserStore.update, beq_iff_eq, hw]
  | cons a rest ih =>
    have ha : a.username ≠ uname := hpre a (List.mem_cons_self _ _)
    have ih2 := ih (fun x hx => hpre x (List.mem_cons_of_mem _ hx))
    simp [UserStore.update, beq_iff_eq, ha, ih2]

theorem roomStore_update_absent (rooms : List Room) (v : Room)
    (h : ∀ w ∈ rooms, w.id ≠ v.id) :
    RoomStore.update rooms v = (rooms, false) := by
  induction rooms with
  | nil => rfl
  | cons w rest ih =>
    have hw : w.id ≠ v.id := h w (List.mem_cons_self _ _)
    have ih2 := ih (fun x hx => h x (List.mem_cons_of_mem _ hx))
    simp [RoomStore.update, beq_iff_eq, hw, ih2]

theorem roomStore_update_found (pre : List Room) (w : Room) (post : List Room)
    (v : Room) (hw : w.id = v.id) (hpre : ∀ x ∈ pre, x.id ≠ v.id) :
    RoomStore.update (pre ++ w :: post) v = (pre ++ v :: post, true) := by
  induction pre with
  | nil => simp [RoomStore.update, beq_iff_eq, hw]
  | cons a rest ih =>
    have ha : a.id ≠ v.id := hpre a (List.mem_cons_self _ _)
    have ih2 := ih (fun x hx => hpre x (List.mem_cons_of_mem _ hx))
    simp [RoomStore.update, beq_iff_eq, ha, ih2]

/-- C9: for both stores, `Update` on an absent key returns `false` and leaves
the contents unchanged; on a present key it returns `true` and replaces
exactly the first matching entry, leaving every other entry in place. -/
theorem store_update_spec (users : List User) (uname : String) (v : User)
    (rooms : List Room) (nr : Room) :
    ((∀ w ∈ users, w.username ≠ uname) → UserStore.update users uname v = (users, false)) ∧
    (∀ pre w post, users = pre ++ w :: post → w.username = uname →
      (∀ x ∈ pre, x.username ≠ uname) →
      UserStore.update users uname v = (pre ++ v :: post, true)) ∧
    ((∀ w ∈ rooms, w.id ≠ nr.id) → RoomStore.update rooms nr = (rooms, false)) ∧
    (∀ pre w post, rooms = pre ++ w :: post → w.id = nr.id →
      (∀ x ∈ pre, x.id ≠ nr.id) →
      RoomStore.update rooms nr = (pre ++ nr :: post, true)) := by
  refine ⟨fun h => userStore_update_absent users uname v h, ?_, ?_, ?_⟩
  · intro pre w post hsplit hw hpre
    subst hsplit
    exact userStore_update_found pre w post uname v hw hpre
  · exact fun h => roomStore_update_absent rooms nr h
  · intro pre w post hsplit hw hpre
    subst hsplit
    exact roomStore_update_found pre w post nr hw hpre

/-- Witness for `store_update_spec`: a concrete present-key update on each
store and a concrete absent-key update. -/
theorem store_update_spec_witness :
    UserStore.update [w9User] "alice" w9UserNew = ([w9UserNew], true) ∧
    UserStore.update [w9User] "bob" w9UserNew = ([w9User], false) ∧
    RoomStore.update [w9Room] w9RoomNew = ([w9RoomNew], true) := by
  refine ⟨?_, ?_, ?_⟩
  · have h := (store_update_spec [w9User] "alice" w9UserNew [] w9RoomNew).2.1
      [] w9User [] (by simp) (by decide) (by simp)
    simpa using h
  · have h := (store_update_spec [w9User] "bob" w9UserNew [] w9RoomNew).1 (by decide)
    exact h
  · have h := (store_update_spec [] "x" w9UserNew [w9Room] w9RoomNew).2.2.2
      [] w9Room [] (by simp) (by decide) (by simp)
    simpa using h

/-- C10: every `GameResult` appended by game-over handling — directly or via
death handling — has an empty `RoomID`, whatever room the game was played
in: `handleGameOver` appends a record whose `roomID` is the literal `""`,
and `handleDeath` only ever appends through `handleGameOver`. -/
theorem gameResult_roomID_empty (rooms : List Room) (results : List GameResult)
    (now : Nat) (g : GameOverInfo) :
    (handleGameOver rooms results now g).results =
      results ++ [{ id := "result_" ++ toString now, roomID := "", winner := g.winner,
                    loser := g.loser, playTime := now, duration := g.duration }] ∧
    (∀ c loserID o, handleDeath rooms results now c loserID = some o →
      o.results.map GameResult.roomID = results.map GameResult.roomID ++ [""]) := by
  constructor
  · rfl
  · intro c loserID o ho
    unfold handleDeath at ho
    cases hr : RoomStore.getByID rooms c.roomID with
    | none => rw [hr] at ho; exact absurd ho (by simp)
    | some room =>
      rw [hr] at ho
      by_cases h2 : room.players.length < 2
      · simp [h2] at ho
      · simp only [h2, if_false, Option.some.injEq] at ho
        subst ho
        simp [handleGameOver]

/-- Witness for `gameResult_roomID_empty`: a death in a concrete two-player
room appends exactly one result, with an empty room id. -/
theorem gameResult_roomID_empty_witness :
    (handleGameOver [w10Room] [] 3 { winner := "b", loser := "a", duration := 0 }).results =
      [{ id := "result_3", roomID := "", winner := "b", loser := "a",
         playTime := 3, duration := 0 }] ∧
    (handleDeath [w10Room] [] 3 w10Client "a").elim False
      (fun o => o.results.map GameResult.roomID = [""]) := by
  constructor
  · have h := (gameResult_roomID_empty [w10Room] [] 3
      { winner := "b", loser := "a", duration := 0 }).1
    simpa using h
  · have h := (gameResult_roomID_empty [w10Room] [] 3
      { winner := "b", loser := "a", duration := 0 }).2 w10Client "a"
    have he : handleDeath [w10Room] [] 3 w10Client "a" =
        some (handleGameOver [w10Room] [] 3 { winner := "b", loser := "a", duration := 0 }) := by
      decide
    rw [he]
    simpa using h _ he

/-- C6: `broadcastGameAction` never enqueues on the sender's own connection,
and enqueues on exactly the live connections whose cached room id equals the
sender's and whose username differs from the sender's. -/
theorem broadcastGameAction_spec (clients : List Client) (sender c : Client) :
    sender ∉ broadcastGameAction clients sender ∧
    (c ∈ broadcastGameAction clients sender ↔
      c ∈ clients ∧ c.roomID = sender.roomID ∧ c.username ≠ sender.username) := by
  constructor
  · intro h
    simp [broadcastGameAction, List.mem_filter] at h
  · simp [broadcastGameAction, List.mem_filter, and_assoc]

/-- C1 (code bug): `handleGameOver` does append a `GameResult` and does
broadcast the payload globally, but it looks the finished game's room up by
the empty-string id, so the room the game was played in — here `c1Room`,
which has id `room_1` and status `playing` — is left untouched instead of
being reset to `waiting`. -/
theorem gameOver_room_not_reset :
    (handleGameOver [c1Room] [] 99 { winner := "bob", loser := "alice", duration := 30 }).rooms
      = [c1Room] ∧
    c1Room.status = "playing" ∧
    (handleGameOver [c1Room] [] 99 { winner := "bob", loser := "alice", duration := 30 }).results
      = [{ id := "result_99", roomID := "", winner := "bob", loser := "alice",
           playTime := 99, duration := 30 }] ∧
    (handleGameOver [c1Room] [] 99 { winner := "bob", loser := "alice", duration := 30 }).broadcastPayload
      = { winner := "bob", loser := "alice", duration := 30 } := by
  decide

/-- C2 (code bug): a `join_room` from a client that is already a member of
the target room sends the structured failure response, but then falls
through (the `break` in the membership loop only leaves the `for`), appends
the sender a second time, flips the room to `ready`, persists it, and sends
a success response as well. -/
theorem joinRoom_member_fallthrough :
    (handleJoinRoom [c2Sender] [c2Room] [] c2Sender "r1").senderMsgs =
      [failResp "您已在房间中", okResp "加入房间成功" (roomInfoOf c2RoomAfter)] ∧
    (handleJoinRoom [c2Sender] [c2Room] [] c2Sender "r1").rooms = [c2RoomAfter] := by
  decide

/-- C3 (counterexample): against `c3Room`, which is simultaneously playing
and full, the HTTP-path `roomService.JoinRoom` returns the full-room
rejection, while the first applicable reason in the claimed precedence
order {not-found, playing, full, already-member} is the mid-game one. -/
theorem joinOrder_service_cex :
    (roomServiceJoinRoom [c3Room] [] "r1" "carol").message = "房间已满" ∧
    specJoinRejectOrder [c3Room] "carol" "r1" = some JoinReject.playing ∧
    rejectMsg JoinReject.playing ≠ "房间已满" := by
  decide

/-- C3 (amended): the hub's `join_room` handler sends exactly the failure
response of the first applicable rejection in the spec's precedence order
{not-found, playing, full, already-member}; the HTTP-path
`roomService.JoinRoom` checks fullness before the playing status, so for a
room that is both playing and full it returns the full-room rejection. -/
theorem joinRoom_first_rejection (clients : List Client) (rooms : List Room)
    (users : List User) (sender : Client) (reqRoomID : String) :
    joinFailureMsgs (handleJoinRoom clients rooms users sender reqRoomID) =
      ((specJoinRejectOrder rooms sender.username reqRoomID).map rejectMsg).toList ∧
    (∀ room, RoomStore.getByID rooms reqRoomID = some room → room.status = "playing" →
      (room.players.length : Int) ≥ room.maxPlayers →
      (roomServiceJoinRoom rooms users reqRoomID sender.username).message = "房间已满") := by
  constructor
  · unfold handleJoinRoom specJoinRejectOrder
    cases hr : RoomStore.getByID rooms reqRoomID with
    | none => simp [joinFailureMsgs, failResp, rejectMsg]
    | some room =>
      by_cases hp : room.status = "playing"
      · simp [hp, joinFailureMsgs, failResp, rejectMsg]
      · by_cases hf : (room.players.length : Int) ≥ room.maxPlayers
        · simp [hp, hf, joinFailureMsgs, failResp, rejectMsg]
        · by_cases hm : sender.username ∈ room.players
          · simp [hp, hf, hm, joinFailureMsgs, failResp, okResp, rejectMsg]
          · simp [hp, hf, hm, joinFailureMsgs, okResp]
  · intro room hr hp hf
    unfold roomServiceJoinRoom
    rw [hr]
    simp [hf]

/-- Witness for `joinRoom_first_rejection`: a join against `c3Room` by carol,
where the hub path reports the mid-game rejection and the service path
reports the full-room rejection. -/
theorem joinRoom_first_rejection_witness :
    joinFailureMsgs (handleJoinRoom [] [c3Room] [] c3Sender "r1") = ["游戏进行中，无法加入"] ∧
    (roomServiceJoinRoom [c3Room] [] "r1" "carol").message = "房间已满" := by
  have h := joinRoom_first_rejection [] [c3Room] [] c3Sender "r1"
  refine ⟨h.1.trans (by decide), ?_⟩
  have h2 := h.2 c3Room (by decide) (by decide) (by decide)
  exact h2

/-- C7: whenever a username is already live — present in the heartbeat table
or carried by some client in the live set — `serveWs` never reaches the
accepting branch that registers a second connection for it. -/
theorem duplicate_session_rejected (st : HubState) (username : String) (nextRef : Nat)
    (h : username ∈ hbKeys st.heartbeatMap ∨ ∃ c ∈ st.clients, c.username = username) :
    ∀ c, serveWs st username nextRef ≠ ServeWsResult.accepted c := by
  intro c
  have hactive : hasActiveConnection st username = true := by
    unfold hasActiveConnection
    rcases h with h | ⟨cl, hcl, hu⟩
    · rcases List.mem_map.mp h with ⟨p, hp, hpu⟩
      simp only [Bool.or_eq_true, List.any_eq_true]
      exact Or.inl ⟨p, hp, by simp [hpu]⟩
    · simp only [Bool.or_eq_true, List.any_eq_true]
      exact Or.inr ⟨cl, hcl, by simp [hu]⟩
  unfold serveWs
  by_cases he : username = ""
  · simp [he]
  · simp [he, hactive]

/-- Witness for `duplicate_session_rejected`: alice is in the heartbeat table
of `w7State`, so her second connect attempt is not accepted. -/
theorem duplicate_session_rejected_witness :
    serveWs w7State "alice" 7 ≠
      ServeWsResult.accepted { ref := 7, username := "alice", roomID := "" } := by
  exact duplicate_session_rejected w7State "alice" 7 (Or.inl (by decide)) _

/-! Lemmas about the heartbeat sweep. -/

theorem sweepEntry_clients (now : Nat) (st : HubState) (p : String × Nat) :
    (sweepEntry now st p).clients = st.clients := by
  unfold sweepEntry
  split <;> rfl

theorem sweepFold_clients (now : Nat) (l : List (String × Nat)) (st : HubState) :
    (sweepFold now l st).clients = st.clients := by
  induction l generalizing st with
  | nil => rfl
  | cons p rest ih =>
    show (sweepFold now rest (sweepEntry now st p)).clients = st.clients
    rw [ih, sweepEntry_clients]

theorem sweepEntry_hb_sub (now : Nat) (st : HubState) (p : String × Nat) (u : String)
    (h : u ∈ hbKeys (sweepEntry now st p).heartbeatMap) :
    u ∈ hbKeys st.heartbeatMap := by
  unfold sweepEntry at h
  split at h
  · rcases List.mem_map.mp h with ⟨q, hq, hqu⟩
    exact List.mem_map.mpr ⟨q, List.mem_of_mem_filter hq, hqu⟩
  · exact h

theorem sweepFold_hb_sub (now : Nat) (l : List (String × Nat)) (st : HubState) (u : String)
    (h : u ∈ hbKeys (sweepFold now l st).heartbeatMap) :
    u ∈ hbKeys st.heartbeatMap := by
  induction l generalizing st with
  | nil => exact h
  | cons p rest ih =>
    exact sweepEntry_hb_sub now st p u (ih (sweepEntry now st p) h)

theorem sweep_removes (now : Nat) (u : String) (t : Nat) (l : List (String × Nat))
    (st : HubState) (hmem : (u, t) ∈ l) (ht : now - t > heartbeatTimeout) :
    u ∉ hbKeys (sweepFold now l st).heartbeatMap := by
  induction l generalizing st with
  | nil => cases hmem
  | cons p rest ih =>
    rcases List.mem_cons.mp hmem with hp | hp
    · subst hp
      intro habs
      have h1 : u ∈ hbKeys (sweepEntry now st (u, t)).heartbeatMap :=
        sweepFold_hb_sub now rest _ u habs
      unfold sweepEntry at h1
      rw [if_pos ht] at h1
      rcases List.mem_map.mp h1 with ⟨q, hq, hqu⟩
      have := List.of_mem_filter hq
      simp only [bne_iff_ne, ne_eq, decide_eq_true_eq] at this
      exact this (by simpa using hqu)
    · exact ih (sweepEntry now st p) hp

theorem sweep_keeps (now : Nat) (u : String) (t : Nat) (l : List (String × Nat))
    (st : HubState) (hmem : (u, t) ∈ st.heartbeatMap)
    (hl : ∀ p ∈ l, p.1 = u → ¬(now - p.2 > heartbeatTimeout)) :
    (u, t) ∈ (sweepFold now l st).heartbeatMap := by
  induction l generalizing st with
  | nil => exact hmem
  | cons p rest ih =>
    have hmem2 : (u, t) ∈ (sweepEntry now st p).heartbeatMap := by
      unfold sweepEntry
      split
      · rename_i htimed
        have hne : p.1 ≠ u := fun he => hl p (List.mem_cons_self _ _) he htimed
        refine List.mem_filter.mpr ⟨hmem, ?_⟩
        simp [Ne.symm hne]
      · exact hmem
    exact ih _ hmem2 (fun q hq => hl q (List.mem_cons_of_mem _ hq))

theorem findByUsername_username (users : List User) (k : String) (u0 : User)
    (h : UserStore.findByUsername users k = some u0) : u0.username = k := by
  have := List.find?_some h
  simpa using this

theorem findByUsername_update_preserve (users : List User) (k : String) (v : User)
    (u : String) (hk : k ≠ u) (hv : v.username ≠ u) :
    UserStore.findByUsername (UserStore.update users k v).1 u =
      UserStore.findByUsername users u := by
  induction users with
  | nil => rfl
  | cons w rest ih =>
    by_cases hw : w.username = k
    · have h1 : UserStore.update (w :: rest) k v = (v :: rest, true) := by
        simp [UserStore.update, beq_iff_eq, hw]
      rw [h1]
      have hwu : w.username ≠ u := hw ▸ hk
      have hv2 : (v.username == u) = false := by simp [hv]
      have hw2 : (w.username == u) = false := by simp [hwu]
      simp [UserStore.findByUsername, List.find?, hv2, hw2]
    · have h1 : UserStore.update (w :: rest) k v =
          (w :: (UserStore.update rest k v).1, (UserStore.update rest k v).2) := by
        simp [UserStore.update, beq_iff_eq, hw]
      rw [h1]
      by_cases hwu : w.username = u
      · have hw2 : (w.username == u) = true := by simp [hwu]
        simp [UserStore.findByUsername, List.find?, hw2]
      · have hw2 : (w.username == u) = false := by simp [hwu]
        simp only [UserStore.findByUsername, List.find?, hw2]
        simpa [UserStore.findByUsername] using ih

theorem userOffline_preserve (users : List User) (w u : String) (h : w ≠ u) :
    UserStore.findByUsername (userOffline users w) u =
      UserStore.findByUsername users u := by
  unfold userOffline
  cases hf : UserStore.findByUsername users w with
  | none => rfl
  | some u0 =>
    by_cases hon : u0.online
    · have hu0 : u0.username = w := findByUsername_username users w u0 hf
      simp only [hon, if_true]
      exact findByUsername_update_preserve users w _ u h (by simp [hu0, h])
    · simp [hon]

theorem findByUsername_update_self (users : List User) (k : String) (u0 v : User)
    (hf : UserStore.findByUsername users k = some u0) (hv : v.username = k) :
    UserStore.findByUsername (UserStore.update users k v).1 k = some v := by
  induction users with
  | nil => cases hf
  | cons w rest ih =>
    by_cases hw : w.username = k
    · have h1 : UserStore.update (w :: rest) k v = (v :: rest, true) := by
        simp [UserStore.update, beq_iff_eq, hw]
      rw [h1]
      have hv2 : (v.username == k) = true := by simp [hv]
      simp [UserStore.findByUsername, List.find?, hv2]
    · have h1 : UserStore.update (w :: rest) k v =
          (w :: (UserStore.update rest k v).1, (UserStore.update rest k v).2) := by
        simp [UserStore.update, beq_iff_eq, hw]
      rw [h1]
      have hw2 : (w.username == k) = false := by simp [hw]
      have hf2 : UserStore.findByUsername rest k = some u0 := by
        simpa [UserStore.findByUsername, List.find?, hw2] using hf
      simp only [UserStore.findByUsername, List.find?, hw2]
      simpa [UserStore.findByUsername] using ih hf2

theorem userOffline_self (users : List User) (u : String) (u0 : User)
    (hf : UserStore.findByUsername users u = some u0) (hon : u0.online = true) :
    UserStore.findByUsername (userOffline users u) u =
      some { u0 with online := false, roomID := "" } := by
  unfold userOffline
  rw [hf]
  simp only [hon, if_true]
  exact findByUsername_update_self users u u0 _ hf
    (by simpa using findByUsername_username users u u0 hf)

theorem sweepEntry_users_preserve (now : Nat) (st : HubState) (p : String × Nat)
    (u : String) (h : p.1 ≠ u) :
    UserStore.findByUsername (sweepEntry now st p).users u =
      UserStore.findByUsername st.users u := by
  unfold sweepEntry
  split
  · exact userOffline_preserve st.users p.1 u h
  · rfl

theorem sweepFold_users_preserve (now : Nat) (l : List (String × Nat)) (st : HubState)
    (u : String) (hl : ∀ p ∈ l, p.1 ≠ u) :
    UserStore.findByUsername (sweepFold now l st).users u =
      UserStore.findByUsername st.users u := by
  induction l generalizing st with
  | nil => rfl
  | cons p rest ih =>
    show UserStore.findByUsername (sweepFold now rest (sweepEntry now st p)).users u = _
    rw [ih _ (fun q hq => hl q (List.mem_cons_of_mem _ hq)),
      sweepEntry_users_preserve now st p u (hl p (List.mem_cons_self _ _))]

theorem hb_nodup_eq (m : List (String × Nat)) (u : String) (t1 t2 : Nat)
    (hnd : (m.map Prod.fst).Nodup) (h1 : (u, t1) ∈ m) (h2 : (u, t2) ∈ m) :
    t1 = t2 := by
  induction m with
  | nil => cases h1
  | cons q rest ih =>
    rw [List.map_cons, List.nodup_cons] at hnd
    rcases List.mem_cons.mp h1 with e1 | e1 <;> rcases List.mem_cons.mp h2 with e2 | e2
    · have h := e1.trans e2.symm
      simpa using h
    · exact absurd (List.mem_map.mpr ⟨(u, t2), e2, by rw [← e1]⟩) hnd.1
    · exact absurd (List.mem_map.mpr ⟨(u, t1), e1, by rw [← e2]⟩) hnd.1
    · exact ih hnd.2 e1 e2

theorem sweepFold_split (now : Nat) (l1 l2 : List (String × Nat)) (p : String × Nat)
    (st : HubState) :
    sweepFold now (l1 ++ p :: l2) st =
      sweepFold now l2 (sweepEntry now (sweepFold now l1 st) p) := by
  unfold sweepFold
  rw [List.foldl_append, List.foldl_cons]

/-- C5 (counterexample): alice's heartbeat stamp is 20 seconds old, yet after
the sweep her connection is still in the live-connection set — the sweep
loop only deletes the heartbeat entry and offlines the stored user, it never
touches `Hub.clients`. -/
theorem sweep_leaves_connection_live :
    c5Now - 0 > heartbeatTimeout ∧
    ("alice", 0) ∈ c5State.heartbeatMap ∧
    c5Client ∈ (sweepStep c5State c5Now).clients := by
  decide

/-- C5 (amended): whenever the sweep runs, every username whose heartbeat
entry is more than 10 seconds old is removed from the heartbeat table and
its stored User, if online, is marked offline with its room reference
cleared — but its connection stays in the live-connection set, which the
sweep leaves untouched; an entry at most 10 seconds old always survives the
sweep. -/
theorem heartbeat_sweep_spec (st : HubState) (now : Nat) (u : String) (t : Nat)
    (hmem : (u, t) ∈ st.heartbeatMap)
    (hnd : (st.heartbeatMap.map Prod.fst).Nodup) :
    (sweepStep st now).clients = st.clients ∧
    (now - t > heartbeatTimeout →
      u ∉ hbKeys (sweepStep st now).heartbeatMap ∧
      ∀ u0, UserStore.findByUsername st.users u = some u0 → u0.online = true →
        UserStore.findByUsername (sweepStep st now).users u =
          some { u0 with online := false, roomID := "" }) ∧
    (¬(now - t > heartbeatTimeout) → (u, t) ∈ (sweepStep st now).heartbeatMap) := by
  refine ⟨sweepFold_clients now st.heartbeatMap st, ?_, ?_⟩
  · intro ht
    refine ⟨sweep_removes now u t st.heartbeatMap st hmem ht, ?_⟩
    intro u0 hf hon
    rcases List.append_of_mem hmem with ⟨l1, l2, hsplit⟩
    have hnd2 := hnd
    rw [hsplit, List.map_append, List.map_cons, List.nodup_append] at hnd2
    have hul2 : u ∉ l2.map Prod.fst := (List.nodup_cons.mp hnd2.2.1).1
    have hul1 : u ∉ l1.map Prod.fst := fun hin => hnd2.2.2 hin (List.mem_cons_self _ _)
    have hl1 : ∀ p ∈ l1, p.1 ≠ u := fun p hp he => hul1 (List.mem_map.mpr ⟨p, hp, he⟩)
    have hl2 : ∀ p ∈ l2, p.1 ≠ u := fun p hp he => hul2 (List.mem_map.mpr ⟨p, hp, he⟩)
    unfold sweepStep
    rw [hsplit, sweepFold_split]
    have h1 : UserStore.findByUsername (sweepFold now l1 st).users u = some u0 := by
      rw [sweepFold_users_preserve now l1 st u hl1]
      exact hf
    have h2 : UserStore.findByUsername
        (sweepEntry now (sweepFold now l1 st) (u, t)).users u =
        some { u0 with online := false, roomID := "" } := by
      unfold sweepEntry
      rw [if_pos ht]
      exact userOffline_self _ u u0 h1 hon
    rw [sweepFold_users_preserve now l2 _ u hl2]
    exact h2
  · intro ht
    refine sweep_keeps now u t st.heartbeatMap st hmem ?_
    intro p hp he
    obtain ⟨p1, p2⟩ := p
    simp only at he
    have hpt : p2 = t := hb_nodup_eq st.heartbeatMap u p2 t hnd (he ▸ hp) hmem
    subst hpt
    exact ht

/-- Witness for `heartbeat_sweep_spec`: in `w5State` bob's stale entry is
swept (user offlined, room cleared, connection kept) while carol's fresh
entry survives. -/
theorem heartbeat_sweep_spec_witness :
    (sweepStep w5State w5Now).clients = w5State.clients ∧
    "bob" ∉ hbKeys (sweepStep w5State w5Now).heartbeatMap ∧
    UserStore.findByUsername (sweepStep w5State w5Now).users "bob" =
      some { w5User with online := false, roomID := "" } ∧
    ("carol", 14000000000) ∈ (sweepStep w5State w5Now).heartbeatMap := by
  have hbob := heartbeat_sweep_spec w5State w5Now "bob" 5 (by decide) (by decide)
  have hcarol := heartbeat_sweep_spec w5State w5Now "carol" 14000000000 (by decide) (by decide)
  exact ⟨hbob.1, (hbob.2.1 (by decide)).1,
    (hbob.2.1 (by decide)).2 w5User (by decide) (by decide),
    hcarol.2.2 (by decide)⟩

/-! Preservation of the heartbeat-key/live-client consistency invariant. -/

theorem hbKeys_hbSet_cases (u k : String) (v : Nat) (m : List (String × Nat))
    (h : u ∈ hbKeys (hbSet k v m)) : u = k ∨ u ∈ hbKeys m := by
  unfold hbSet hbKeys at h
  rw [List.map_cons] at h
  rcases List.mem_cons.mp h with he | hm
  · exact Or.inl he
  · rcases List.mem_map.mp hm with ⟨q, hq, hqu⟩
    exact Or.inr (List.mem_map.mpr ⟨q, List.mem_of_mem_filter hq, hqu⟩)

theorem hbKeys_hbErase_facts (u k : String) (m : List (String × Nat))
    (h : u ∈ hbKeys (hbErase k m)) : u ∈ hbKeys m ∧ u ≠ k := by
  unfold hbErase hbKeys at h
  rcases List.mem_map.mp h with ⟨q, hq, hqu⟩
  have hqm := List.mem_of_mem_filter hq
  have hqk := List.of_mem_filter hq
  simp only [bne_iff_ne, ne_eq, decide_eq_true_eq] at hqk
  exact ⟨List.mem_map.mpr ⟨q, hqm, hqu⟩, fun he => hqk (hqu.trans he)⟩

theorem hbConsistent_register (st : HubState) (c : Client) (now : Nat)
    (h : hbConsistent st) : hbConsistent (registerStep st c now) := by
  intro u hu
  have hu2 : u = c.username ∨ u ∈ hbKeys st.heartbeatMap :=
    hbKeys_hbSet_cases u c.username now st.heartbeatMap hu
  have hcl : ∀ x ∈ st.clients, x ∈ (registerStep st c now).clients := by
    intro x hx
    unfold registerStep
    by_cases hc : c ∈ st.clients <;> simp [hc, hx]
  rcases hu2 with he | hu2
  · subst he
    refine ⟨c, ?_, rfl⟩
    unfold registerStep
    by_cases hc : c ∈ st.clients <;> simp [hc]
  · rcases h u hu2 with ⟨cl, hclm, hcu⟩
    exact ⟨cl, hcl cl hclm, hcu⟩

theorem hbConsistent_unregister (st : HubState) (c : Client)
    (h : hbConsistent st) : hbConsistent (unregisterStep st c) := by
  unfold unregisterStep
  by_cases hc : c ∈ st.clients
  · rw [if_pos hc]
    intro u hu
    rcases hbKeys_hbErase_facts u c.username st.heartbeatMap hu with ⟨hu2, hne⟩
    rcases h u hu2 with ⟨cl, hclm, hcu⟩
    have hclc : cl ≠ c := fun he => hne (by rw [← hcu, he])
    refine ⟨cl, List.mem_filter.mpr ⟨hclm, ?_⟩, hcu⟩
    simp [hclc]
  · rw [if_neg hc]
    exact h

theorem hbConsistent_broadcast (slow : List Client) (st : HubState)
    (h : hbConsistent st) : hbConsistent (broadcastStep st slow) := by
  induction slow generalizing st with
  | nil => exact h
  | cons c rest ih =>
    exact ih (unregisterStep st c) (hbConsistent_unregister st c h)

theorem hbConsistent_sweepEntry (now : Nat) (st : HubState) (p : String × Nat)
    (h : hbConsistent st) : hbConsistent (sweepEntry now st p) := by
  intro u hu
  rcases h u (sweepEntry_hb_sub now st p u hu) with ⟨cl, hclm, hcu⟩
  refine ⟨cl, ?_, hcu⟩
  rw [sweepEntry_clients]
  exact hclm

theorem hbConsistent_sweepFold (now : Nat) (l : List (String × Nat)) (st : HubState)
    (h : hbConsistent st) : hbConsistent (sweepFold now l st) := by
  induction l generalizing st with
  | nil => exact h
  | cons p rest ih =>
    exact ih (sweepEntry now st p) (hbConsistent_sweepEntry now st p h)

theorem hbConsistent_heartbeatMsg (st : HubState) (c : Client) (now : Nat)
    (hc : c ∈ st.clients) (h : hbConsistent st) :
    hbConsistent (heartbeatMsgStep st c now) := by
  intro u hu
  have hu2 : u = c.username ∨ u ∈ hbKeys st.heartbeatMap :=
    hbKeys_hbSet_cases u c.username now st.heartbeatMap hu
  rcases hu2 with he | hu2
  · exact ⟨c, hc, he.symm⟩
  · exact h u hu2

theorem hbConsistent_createRoom (st : HubState) (c : Client) (req : CreateRoomRequest)
    (now : Nat) (h : hbConsistent st) : hbConsistent (createRoomStep st c req now) := by
  intro u hu
  rcases h u hu with ⟨cl, hclm, hcu⟩
  have hmap : (createRoomStep st c req now).clients =
      st.clients.map (fun x => if x = c then
        { x with roomID := (createRoomRecord c.username req now).id } else x) := rfl
  refine ⟨if cl = c then { cl with roomID := (createRoomRecord c.username req now).id } else cl,
    ?_, ?_⟩
  · rw [hmap]
    exact List.mem_map.mpr ⟨cl, hclm, rfl⟩
  · by_cases he : cl = c <;> simp [he] <;> simpa [he] using hcu

theorem hbConsistent_joinRoom (st : HubState) (c : Client) (reqRoomID : String)
    (h : hbConsistent st) : hbConsistent (joinRoomStep st c reqRoomID) := by
  intro u hu
  rcases h u hu with ⟨cl, hclm, hcu⟩
  have hmap : (joinRoomStep st c reqRoomID).clients =
      st.clients.map (fun x => if x = c then
        { x with roomID := (handleJoinRoom st.clients st.rooms st.users c reqRoomID).senderRoomID }
        else x) := rfl
  refine ⟨if cl = c then
      { cl with roomID := (handleJoinRoom st.clients st.rooms st.users c reqRoomID).senderRoomID }
      else cl, ?_, ?_⟩
  · rw [hmap]
    exact List.mem_map.mpr ⟨cl, hclm, rfl⟩
  · by_cases he : cl = c <;> simp [he] <;> simpa [he] using hcu

theorem startGameStep_same (st : HubState) (c : Client) :
    (startGameStep st c).clients = st.clients ∧
    (startGameStep st c).heartbeatMap = st.heartbeatMap := by
  unfold startGameStep
  split
  · exact ⟨rfl, rfl⟩
  · split <;> exact ⟨rfl, rfl⟩

theorem deathStep_same (st : HubState) (c : Client) (loserID : String) (now : Nat) :
    (deathStep st c loserID now).clients = st.clients ∧
    (deathStep st c loserID now).heartbeatMap = st.heartbeatMap := by
  unfold deathStep
  split <;> exact ⟨rfl, rfl⟩

/-- C8: in every state reachable by hub operations, the key set of the
heartbeat table is a subset of the usernames of the live connections: the
only operation that inserts a heartbeat key — register or a heartbeat
message — does so for a live client's username, and every removal from the
client set also removes the matching heartbeat key. -/
theorem hb_keys_subset_live (guard : CreateRoomRequest → Prop) (st : HubState)
    (h : Reachable guard st) :
    ∀ u, u ∈ hbKeys st.heartbeatMap → ∃ c, c ∈ st.clients ∧ c.username = u := by
  rcases h with ⟨users0, results0, hr⟩
  induction hr with
  | refl => intro u hu; cases hu
  | tail hab hstep ih =>
    cases hstep with
    | register c now => exact hbConsistent_register _ c now ih
    | unregister c => exact hbConsistent_unregister _ c ih
    | broadcastTeardown slow => exact hbConsistent_broadcast slow _ ih
    | sweep now => exact hbConsistent_sweepFold now _ _ ih
    | heartbeat c now hc => exact hbConsistent_heartbeatMsg _ c now hc ih
    | createRoom c req now hc hreq => exact hbConsistent_createRoom _ c req now ih
    | joinRoom c reqRoomID hc => exact hbConsistent_joinRoom _ c reqRoomID ih
    | startGame c hc =>
      intro u hu
      rw [(startGameStep_same _ c).2] at hu
      rcases ih u hu with ⟨cl, hclm, hcu⟩
      refine ⟨cl, ?_, hcu⟩
      rw [(startGameStep_same _ c).1]
      exact hclm
    | gameOver g now => exact ih
    | death c loserID now hc =>
      intro u hu
      rw [(deathStep_same _ c loserID now).2] at hu
      rcases ih u hu with ⟨cl, hclm, hcu⟩
      refine ⟨cl, ?_, hcu⟩
      rw [(deathStep_same _ c loserID now).1]
      exact hclm

/-- Witness for `hb_keys_subset_live`: after registering alice from the
startup state, the key `alice` is backed by her live connection. -/
theorem hb_keys_subset_live_witness :
    ∃ c, c ∈ w8State.clients ∧ c.username = "alice" := by
  refine hb_keys_subset_live (fun _ => True) w8State ?_ "alice" (by decide)
  exact ⟨[], [], Relation.ReflTransGen.single (HubStep.register (initState [] []) w8Client 5)⟩

/-! Preservation of the room invariants. -/

theorem roomStore_getByID_mem (rooms : List Room) (rid : String) (r : Room)
    (h : RoomStore.getByID rooms rid = some r) : r ∈ rooms :=
  List.mem_of_find?_eq_some h

theorem roomStore_update_mem (rooms : List Room) (v r : Room)
    (h : r ∈ (RoomStore.update rooms v).1) : r ∈ rooms ∨ r = v := by
  induction rooms with
  | nil => cases h
  | cons w rest ih =>
    by_cases hw : w.id = v.id
    · have he : RoomStore.update (w :: rest) v = (v :: rest, true) := by
        simp [RoomStore.update, beq_iff_eq, hw]
      rw [he] at h
      rcases List.mem_cons.mp h with h1 | h1
      · exact Or.inr h1
      · exact Or.inl (List.mem_cons_of_mem _ h1)
    · have he : RoomStore.update (w :: rest) v =
          (w :: (RoomStore.update rest v).1, (RoomStore.update rest v).2) := by
        simp [RoomStore.update, beq_iff_eq, hw]
      rw [he] at h
      rcases List.mem_cons.mp h with h1 | h1
      · exact Or.inl (h1 ▸ List.mem_cons_self _ _)
      · rcases ih h1 with h2 | h2
        · exact Or.inl (List.mem_cons_of_mem _ h2)
        · exact Or.inr h2

theorem handleJoinRoom_rooms_inv (clients : List Client) (rooms : List Room)
    (users : List User) (sender : Client) (reqRoomID : String)
    (h : ∀ r ∈ rooms, roomInv r) :
    ∀ r ∈ (handleJoinRoom clients rooms users sender reqRoomID).rooms, roomInv r := by
  unfold handleJoinRoom
  cases hr : RoomStore.getByID rooms reqRoomID with
  | none => exact h
  | some room =>
    by_cases hp : room.status = "playing"
    · simp only [hp, if_true]
      exact h
    · by_cases hf : (room.players.length : Int) ≥ room.maxPlayers
      · simp only [hp, hf, if_false, if_true]
        exact h
      · simp only [hp, hf, if_false]
        intro r hrm
        rcases roomStore_update_mem rooms _ r hrm with hin | he
        · exact h r hin
        · subst he
          have hroom := h room (roomStore_getByID_mem rooms reqRoomID room hr)
          constructor
          · have hlt : (room.players.length : Int) < room.maxPlayers := lt_of_not_ge hf
            simp only [List.length_append, List.length_cons, List.length_nil]
            push_cast
            omega
          · exact List.mem_append_left _ hroom.2

theorem handleGameOver_rooms_inv (rooms : List Room) (results : List GameResult)
    (now : Nat) (g : GameOverInfo) (h : ∀ r ∈ rooms, roomInv r) :
    ∀ r ∈ (handleGameOver rooms results now g).rooms, roomInv r := by
  unfold handleGameOver
  cases hr : RoomStore.getByID rooms "" with
  | none => exact h
  | some room =>
    intro r hrm
    rcases roomStore_update_mem rooms _ r hrm with hin | he
    · exact h r hin
    · subst he
      have hroom := h room (roomStore_getByID_mem rooms "" room hr)
      exact ⟨hroom.1, hroom.2⟩

theorem startGameStep_rooms_inv (st : HubState) (c : Client)
    (h : ∀ r ∈ st.rooms, roomInv r) :
    ∀ r ∈ (startGameStep st c).rooms, roomInv r := by
  unfold startGameStep
  split
  · exact h
  · rename_i room hr
    split
    · exact h
    · intro r hrm
      rcases roomStore_update_mem st.rooms _ r hrm with hin | he
      · exact h r hin
      · subst he
        have hroom := h room (roomStore_getByID_mem st.rooms c.roomID room hr)
        exact ⟨hroom.1, hroom.2⟩

theorem createRoomStep_rooms_inv (st : HubState) (c : Client)
    (req : CreateRoomRequest) (now : Nat) (hreq : 1 ≤ req.maxPlayers)
    (h : ∀ r ∈ st.rooms, roomInv r) :
    ∀ r ∈ (createRoomStep st c req now).rooms, roomInv r := by
  intro r hrm
  have he : (createRoomStep st c req now).rooms =
      st.rooms ++ [createRoomRecord c.username req now] := rfl
  rw [he] at hrm
  rcases List.mem_append.mp hrm with hin | hnew
  · exact h r hin
  · have h2 : r = createRoomRecord c.username req now := by simpa using hnew
    subst h2
    constructor
    · simpa [createRoomRecord] using hreq
    · simp [createRoomRecord]

theorem deathStep_rooms_inv (st : HubState) (c : Client) (loserID : String)
    (now : Nat) (h : ∀ r ∈ st.rooms, roomInv r) :
    ∀ r ∈ (deathStep st c loserID now).rooms, roomInv r := by
  unfold deathStep
  cases hd : handleDeath st.rooms st.results now c loserID with
  | none => exact h
  | some o =>
    unfold handleDeath at hd
    cases hr : RoomStore.getByID st.rooms c.roomID with
    | none => rw [hr] at hd; cases hd
    | some room =>
      rw [hr] at hd
      by_cases h2 : room.players.length < 2
      · simp [h2] at hd
      · simp only [h2, if_false, Option.some.injEq] at hd
        subst hd
        intro r hrm
        refine handleGameOver_rooms_inv st.rooms st.results now
          { winner := (room.players.find? (fun p => p != loserID)).getD "",
            loser := loserID, duration := 0 } h r ?_
        exact hrm

/-- C4 (amended): provided every create-room request asks for `max_players ≥
1`, every room in every reachable hub state satisfies `len(players) ≤
maxPlayers` and `hostId ∈ players`: create-room then establishes both,
join-room appends one player only after the not-full check, and every other
operation leaves the player list, capacity and host untouched. -/
theorem rooms_invariant (st : HubState)
    (h : Reachable (fun req => 1 ≤ req.maxPlayers) st) :
    ∀ r ∈ st.rooms, (r.players.length : Int) ≤ r.maxPlayers ∧ r.hostID ∈ r.players := by
  rcases h with ⟨users0, results0, hr⟩
  induction hr with
  | refl => intro r hrm; cases hrm
  | tail hab hstep ih =>
    cases hstep with
    | register c now => exact ih
    | unregister c =>
      intro r hrm
      refine ih r ?_
      unfold unregisterStep at hrm
      split at hrm <;> exact hrm
    | broadcastTeardown slow =>
      intro r hrm
      refine ih r ?_
      have hsame : ∀ (l : List Client) (s : HubState),
          (broadcastStep s l).rooms = s.rooms := by
        intro l
        induction l with
        | nil => intro s; rfl
        | cons c rest ihl =>
          intro s
          show (broadcastStep (unregisterStep s c) rest).rooms = s.rooms
          rw [ihl (unregisterStep s c)]
          unfold unregisterStep
          split <;> rfl
      rw [hsame] at hrm
      exact hrm
    | sweep now =>
      intro r hrm
      refine ih r ?_
      have hsame : ∀ (l : List (String × Nat)) (s : HubState),
          (sweepFold now l s).rooms = s.rooms := by
        intro l
        induction l with
        | nil => intro s; rfl
        | cons p rest ihl =>
          intro s
          show (sweepFold now rest (sweepEntry now s p)).rooms = s.rooms
          rw [ihl (sweepEntry now s p)]
          unfold sweepEntry
          split <;> rfl
      unfold sweepStep at hrm
      rw [hsame] at hrm
      exact hrm
    | heartbeat c now hc => exact ih
    | createRoom c req now hc hreq => exact createRoomStep_rooms_inv _ c req now hreq ih
    | joinRoom c reqRoomID hc => exact handleJoinRoom_rooms_inv _ _ _ c reqRoomID ih
    | startGame c hc => exact startGameStep_rooms_inv _ c ih
    | gameOver g now =>
      rename_i st1
      exact handleGameOver_rooms_inv st1.rooms st1.results now g ih
    | death c loserID now hc => exact deathStep_rooms_inv _ c loserID now ih

/-- C4 (counterexample): `create_room` copies the requested `max_players`
without validation, so a request for capacity 0 — reachable from the startup
state by a register followed by the create — produces a stored room with one
player and `maxPlayers = 0`, violating `len(players) ≤ maxPlayers`. -/
theorem rooms_invariant_cex :
    Reachable (fun _ => True) c4CexState ∧
    c4CexRoom ∈ c4CexState.rooms ∧
    ¬ ((c4CexRoom.players.length : Int) ≤ c4CexRoom.maxPlayers ∧
        c4CexRoom.hostID ∈ c4CexRoom.players) := by
  refine ⟨⟨[], [], ?_⟩, by decide, by decide⟩
  exact Relation.ReflTransGen.tail
    (Relation.ReflTransGen.single (HubStep.register (initState [] []) c4Client 0))
    (HubStep.createRoom (registerStep (initState [] []) c4Client 0) c4Client c4CexReq 7
      (by decide) trivial)

/-- Witness for `rooms_invariant`: the room created from `w4Req` (capacity 2)
in the reachable state `w4State` satisfies both invariants. -/
theorem rooms_invariant_witness :
    ((createRoomRecord "alice" w4Req 7).players.length : Int) ≤
      (createRoomRecord "alice" w4Req 7).maxPlayers ∧
    (createRoomRecord "alice" w4Req 7).hostID ∈ (createRoomRecord "alice" w4Req 7).players := by
  refine rooms_invariant w4State ⟨[], [], ?_⟩ (createRoomRecord "alice" w4Req 7) (by decide)
  exact Relation.ReflTransGen.tail
    (Relation.ReflTransGen.single (HubStep.register (initState [] []) c4Client 3))
    (HubStep.createRoom (registerStep (initState [] []) c4Client 3) c4Client w4Req 7
      (by decide) (by decide))

end GameServer
